import Mathlib

/-!
Shallow embedding of the suspicious-activity detection core of the
HAMSAS_BOT repository (src/monitoring.py, src/config.py and the alert
dispatch path of src/main.py).  Text is modelled as `List Char` with
ASCII semantics for `lower`/`isupper`/`isalpha`/whitespace (all inputs
of interest are ASCII); Python float comparisons of small ratios
(`x / n > 0.7`, `x / n < 0.3`) are modelled exactly by cross
multiplication; time is modelled as seconds (`Nat`).
-/

namespace Hamsas

/-- `headMatch pat s` : `pat` occurs at the very start of `s`
(the building block of Python's substring test `pat in s`). -/
def headMatch : List Char → List Char → Bool
  | [], _ => true
  | _ :: _, [] => false
  | p :: ps, c :: cs => p = c && headMatch ps cs

/-- `containsSeq pat s` : Python's `pat in s` substring containment. -/
def containsSeq (pat : List Char) : List Char → Bool
  | [] => headMatch pat []
  | c :: cs => headMatch pat (c :: cs) || containsSeq pat cs

/-- Python `str.lower()` restricted to ASCII. -/
def lowerText (text : List Char) : List Char := text.map Char.toLower

/-- ASCII whitespace recognised by Python's `str.split()`. -/
def isSpace (c : Char) : Bool :=
  c = ' ' || c = '\t' || c = '\n' || c = '\x0d' || c = '\x0b' || c = '\x0c'

/-- Worker for `splitWs`; `acc` holds the current word reversed. -/
def splitWsAux : List Char → List Char → List (List Char)
  | [], acc => if acc.isEmpty then [] else [acc.reverse]
  | c :: cs, acc =>
    if isSpace c then
      if acc.isEmpty then splitWsAux cs [] else acc.reverse :: splitWsAux cs []
    else splitWsAux cs (c :: acc)

/-- Python `text.split()`: split on whitespace runs, no empty words. -/
def splitWs (text : List Char) : List (List Char) := splitWsAux text []

/-- `sum(1 for c in text if c.isupper())` (ASCII). -/
def upperCount (text : List Char) : Nat := (text.filter Char.isUpper).length

/-- src/config.py `Config.SUSPICIOUS_KEYWORDS` (list order is observable:
the keyword scan reports the first match). -/
def SUSPICIOUS_KEYWORDS : List (List Char) :=
  ["http://".toList, "https://".toList, "t.me/".toList, ".com".toList,
   ".org".toList, ".net".toList, "bit.ly".toList, "t.co".toList,
   "spam".toList, "scam".toList, "phishing".toList]

/-- src/config.py `Config.MESSAGES_PER_MINUTE`. -/
def MESSAGES_PER_MINUTE : Nat := 10

/-- src/config.py `Config.LINKS_PER_HOUR`. -/
def LINKS_PER_HOUR : Nat := 5

/-- One character matchable by the repetition body of the URL regex in
`ActivityMonitor.extract_links`:
`(?:[a-zA-Z]|[0-9]|[$-_@.&+]|[!*\(\),]|(?:%[0-9a-fA-F][0-9a-fA-F]))+`.
`[$-_@.&+]` is the byte range 0x24..0x5F (which already contains
`@ . & + 0-9 A-Z * \ ( ) ,` and `%`), so the per-character union is:
lowercase letters, uppercase letters, digits, the range 0x24..0x5F,
and `! * \ ( ) ,`; the three-character `%hh` alternative adds no new
characters (`%` and hex digits are already included). -/
def urlChar (c : Char) : Bool :=
  ('a' ≤ c && c ≤ 'z') || ('A' ≤ c && c ≤ 'Z') || ('0' ≤ c && c ≤ '9') ||
  ('$' ≤ c && c ≤ '_') ||
  c = '!' || c = '*' || c = '\\' || c = '(' || c = ')' || c = ','

/-- Strip `pat` from the front of `s`, returning the remainder. -/
def stripLead : List Char → List Char → Option (List Char)
  | [], s => some s
  | _ :: _, [] => none
  | p :: ps, c :: cs => if p = c then stripLead ps cs else none

/-- Try to match `http[s]?://` followed by a maximal non-empty run of
`urlChar` at the head of `s`; on success return the matched link and
the rest of the input.  The regex tries the greedy `[s]?` branch first;
if `https://` is present but no `urlChar` follows, the `http://`
branch cannot match either (the fifth character is `s`, not `:`), so
the whole position fails — exactly what this definition returns. -/
def matchLinkAt (s : List Char) : Option (List Char × List Char) :=
  match stripLead "https://".toList s with
  | some rest =>
    let run := rest.takeWhile urlChar
    if run.isEmpty then none
    else some ("https://".toList ++ run, rest.drop run.length)
  | none =>
    match stripLead "http://".toList s with
    | some rest =>
      let run := rest.takeWhile urlChar
      if run.isEmpty then none
      else some ("http://".toList ++ run, rest.drop run.length)
    | none => none

/-- Left-to-right non-overlapping scan of `re.findall`; `fuel` bounds
the recursion (every step consumes at least one character, so
`fuel = length of the text` is exact). -/
def scanLinks : Nat → List Char → List (List Char)
  | 0, _ => []
  | _, [] => []
  | fuel + 1, c :: cs =>
    match matchLinkAt (c :: cs) with
    | some (link, rest) => link :: scanLinks fuel rest
    | none => scanLinks fuel cs

/-- `ActivityMonitor.extract_links`. -/
def extract_links (text : List Char) : List (List Char) :=
  if text.isEmpty then [] else scanLinks text.length text

/-- The `suspicious_domains` local list of `ActivityMonitor.is_suspicious_url`. -/
def suspicious_domains : List (List Char) :=
  ["bit.ly".toList, "t.co".toList, "tinyurl.com".toList, "shorte.st".toList]

/-- `ActivityMonitor.is_suspicious_url`: `any(domain in url for domain in ...)`. -/
def is_suspicious_url (url : List Char) : Bool :=
  suspicious_domains.any (fun d => containsSeq d url)

/-- The excessive-capitalization branch of
`ActivityMonitor.detect_spam_patterns`: `len(text) > 10` and
`sum(1 for c in text if c.isupper()) / len(text) > 0.7`
(the denominator is the FULL text length). -/
def shoutingHit (text : List Char) : Bool :=
  decide (10 < text.length) && decide (7 * text.length < 10 * upperCount text)

/-- The repetitive-content branch of `ActivityMonitor.detect_spam_patterns`:
`len(words) > 5` and `len(set(words)) / len(words) < 0.3`. -/
def repetitionHit (text : List Char) : Bool :=
  let ws := splitWs text
  decide (5 < ws.length) && decide (10 * ws.dedup.length < 3 * ws.length)

/-- `ActivityMonitor.detect_spam_patterns` (early `return True` on the
capitalization branch makes it the boolean `or` of the two branches). -/
def detect_spam_patterns (text : List Char) : Bool :=
  if text.isEmpty then false else shoutingHit text || repetitionHit text

/-- The keyword loop of `ActivityMonitor.check_message`: first keyword of
`SUSPICIOUS_KEYWORDS` (in list order) with `keyword.lower() in text.lower()`;
the loop `break`s after the first hit. -/
def firstKeyword (text : List Char) : Option (List Char) :=
  SUSPICIOUS_KEYWORDS.find? (fun kw => containsSeq (lowerText kw) (lowerText text))

/-- One reason string appended by `check_message`, abstracted by category
with the data the source interpolates into the format string. -/
inductive Reason : Type
  | flood (count : Nat)
  | excessLinks (count : Nat)
  | suspiciousUrl (link : List Char)
  | keyword (kw : List Char)
  | spamPattern
deriving DecidableEq

/-- Is this a "Message flood: ..." reason? -/
def Reason.isFlood : Reason → Bool
  | .flood _ => true
  | _ => false

/-- Is this an "Excessive links: ..." reason? -/
def Reason.isExcessLinks : Reason → Bool
  | .excessLinks _ => true
  | _ => false

/-- Is this a "Suspicious URL detected: ..." reason? -/
def Reason.isSusUrl : Reason → Bool
  | .suspiciousUrl _ => true
  | _ => false

/-- Is this a "Suspicious keyword detected: ..." reason? -/
def Reason.isKeyword : Reason → Bool
  | .keyword _ => true
  | _ => false

/-- Is this the "Spam-like message pattern detected" reason? -/
def Reason.isSpam : Reason → Bool
  | .spamPattern => true
  | _ => false

/-- Position of a reason's category in the order `check_message` appends:
flood, excess links, per-link suspicious URL, keyword, spam pattern. -/
def Reason.rank : Reason → Nat
  | .flood _ => 0
  | .excessLinks _ => 1
  | .suspiciousUrl _ => 2
  | .keyword _ => 3
  | .spamPattern => 4

/-- The inbound message fields `check_message` / `handle_message` read. -/
structure Message : Type where
  fromUserId : String
  chatId : String
  text : Option (List Char)
  caption : Option (List Char)
  isBot : Bool

/-- Python's falsy-`or` on optional strings: `o or d`. -/
def coalesce (o : Option (List Char)) (d : List Char) : List Char :=
  match o with
  | some s => if s.isEmpty then d else s
  | none => d

/-- `text = message.text or message.caption or ""` in `check_message`. -/
def effText (m : Message) : List Char := coalesce m.text (coalesce m.caption [])

/-- The mutable state of `ActivityMonitor`: the two per-user
`defaultdict(int)` counters and `last_reset` (seconds). -/
structure MonitorState : Type where
  msgCount : String → Nat
  linkCount : String → Nat
  lastReset : Nat

/-- The state `ActivityMonitor.__init__` builds at time `now`. -/
def initialMonitor (now : Nat) : MonitorState :=
  ⟨fun _ => 0, fun _ => 0, now⟩

/-- `counter[user] += n` on a `defaultdict(int)`. -/
def bump (f : String → Nat) (u : String) (n : Nat) : String → Nat :=
  fun v => if v = u then f v + n else f v

/-- `ActivityMonitor.reset_counters`: clear both maps and move
`last_reset` when strictly more than one minute has elapsed. -/
def reset_counters (st : MonitorState) (now : Nat) : MonitorState :=
  if st.lastReset + 60 < now then ⟨fun _ => 0, fun _ => 0, now⟩ else st

/-- The flood reason appended for a post-increment message count. -/
def floodSegOf (count : Nat) : List Reason :=
  if count > MESSAGES_PER_MINUTE then [Reason.flood count] else []

/-- The link reasons: inside `if links:`, an excess-links reason when the
post-increment link count is over the limit, then one reason per
extracted link that `is_suspicious_url` accepts, in link order. -/
def linkSegOf (links : List (List Char)) (lcount : Nat) : List Reason :=
  if links.isEmpty then []
  else
    (if lcount > LINKS_PER_HOUR then [Reason.excessLinks lcount] else []) ++
    (links.filter is_suspicious_url).map Reason.suspiciousUrl

/-- The at-most-one keyword reason (first matching keyword only). -/
def kwSegOf (text : List Char) : List Reason :=
  match firstKeyword text with
  | some kw => [Reason.keyword kw]
  | none => []

/-- The single combined spam-pattern reason appended when
`detect_spam_patterns` returns true. -/
def spamSegOf (text : List Char) : List Reason :=
  if detect_spam_patterns text then [Reason.spamPattern] else []

/-- The message counter after `self.user_message_count[user_id] += 1`
(run after the window reset). -/
def mcAfter (st : MonitorState) (now : Nat) (msg : Message) : String → Nat :=
  bump (reset_counters st now).msgCount msg.fromUserId 1

/-- The link counter after the `if links:` block: bumped by the number of
extracted links when some were found, untouched otherwise. -/
def lcAfter (st : MonitorState) (now : Nat) (msg : Message) : String → Nat :=
  if (extract_links (effText msg)).isEmpty then (reset_counters st now).linkCount
  else bump (reset_counters st now).linkCount msg.fromUserId
        (extract_links (effText msg)).length

/-- `ActivityMonitor.check_message`: reset the window if due, bump the
message counter, extract links (bumping the link counter only when
some were found), and accumulate the reasons in source order. -/
def check_message (st : MonitorState) (now : Nat) (msg : Message) :
    MonitorState × List Reason :=
  (⟨mcAfter st now msg, lcAfter st now msg, (reset_counters st now).lastReset⟩,
    floodSegOf (mcAfter st now msg msg.fromUserId) ++
    linkSegOf (extract_links (effText msg)) (lcAfter st now msg msg.fromUserId) ++
    kwSegOf (effText msg) ++ spamSegOf (effText msg))

/-- `ProtectionBot.handle_message` (src/main.py): skip bot senders,
run `check_message`, and take the alert-dispatch path (database log,
`alert_system.send_alert`, owner notification) exactly when the reason
list is non-empty.  The returned boolean records whether the dispatch
path was taken; no cooldown state exists anywhere in the source. -/
def handle_message (st : MonitorState) (now : Nat) (msg : Message) :
    MonitorState × Bool :=
  if msg.isBot then (st, false)
  else ((check_message st now msg).1, !(check_message st now msg).2.isEmpty)

/-- Run `check_message` on the same message at the given sequence of
times, collecting each call's reason list. -/
def checkRun (st : MonitorState) (msg : Message) : List Nat → List (List Reason)
  | [] => []
  | t :: ts =>
    let r := check_message st t msg
    r.2 :: checkRun r.1 msg ts

/-- Does a reason list contain a flood reason? -/
def hasFlood (rs : List Reason) : Bool := rs.any Reason.isFlood

/-- The shouting condition exactly as the SPECIFICATION words it
(for comparison with the source's `shoutingHit`): text length > 10 and
the fraction of ALPHABETIC characters that are uppercase exceeds 0.7.
The source divides by the full text length instead. -/
def shoutingSpecClaim (text : List Char) : Bool :=
  decide (10 < text.length) &&
  decide (7 * (text.filter Char.isAlpha).length < 10 * upperCount text)

/-! ### Basic lemmas about the embedded operations -/

theorem reset_counters_of_not {st : MonitorState} {now : Nat}
    (h : ¬ st.lastReset + 60 < now) : reset_counters st now = st := by
  unfold reset_counters
  exact if_neg h

theorem reset_counters_of_elapsed {st : MonitorState} {now : Nat}
    (h : st.lastReset + 60 < now) :
    reset_counters st now = ⟨fun _ => 0, fun _ => 0, now⟩ := by
  unfold reset_counters
  exact if_pos h

theorem check_message_snd (st : MonitorState) (now : Nat) (msg : Message) :
    (check_message st now msg).2 =
      floodSegOf (mcAfter st now msg msg.fromUserId) ++
      linkSegOf (extract_links (effText msg)) (lcAfter st now msg msg.fromUserId) ++
      kwSegOf (effText msg) ++ spamSegOf (effText msg) := rfl

theorem check_message_fst (st : MonitorState) (now : Nat) (msg : Message) :
    (check_message st now msg).1 =
      ⟨mcAfter st now msg, lcAfter st now msg, (reset_counters st now).lastReset⟩ := rfl

theorem mcAfter_self (st : MonitorState) (now : Nat) (msg : Message) :
    mcAfter st now msg msg.fromUserId
      = (reset_counters st now).msgCount msg.fromUserId + 1 := by
  unfold mcAfter bump
  simp

/-! ### Membership shape of the four reason segments -/

theorem mem_floodSegOf {r : Reason} {c : Nat} (h : r ∈ floodSegOf c) :
    r = Reason.flood c := by
  unfold floodSegOf at h
  split at h
  · simpa using h
  · simp at h

theorem mem_linkSegOf {r : Reason} {links : List (List Char)} {n : Nat}
    (h : r ∈ linkSegOf links n) :
    r = Reason.excessLinks n ∨ ∃ l, r = Reason.suspiciousUrl l := by
  unfold linkSegOf at h
  split at h
  · simp at h
  · rcases List.mem_append.mp h with h1 | h2
    · left
      split at h1 <;> simp_all
    · right
      rcases List.mem_map.mp h2 with ⟨l, _, rfl⟩
      exact ⟨l, rfl⟩

theorem mem_kwSegOf {r : Reason} {t : List Char} (h : r ∈ kwSegOf t) :
    ∃ k, r = Reason.keyword k := by
  unfold kwSegOf at h
  split at h
  · next kw _ => exact ⟨kw, by simpa using h⟩
  · simp at h

theorem mem_spamSegOf {r : Reason} {t : List Char} (h : r ∈ spamSegOf t) :
    r = Reason.spamPattern := by
  unfold spamSegOf at h
  split at h
  · simpa using h
  · simp at h

/-! ### Category filters of a `check_message` result -/

theorem filter_isSpam_check (st : MonitorState) (now : Nat) (msg : Message) :
    ((check_message st now msg).2).filter Reason.isSpam = spamSegOf (effText msg) := by
  rw [check_message_snd, List.filter_append, List.filter_append, List.filter_append]
  have h1 : (floodSegOf (mcAfter st now msg msg.fromUserId)).filter Reason.isSpam = [] := by
    rw [List.filter_eq_nil_iff]
    intro r hr
    rw [mem_floodSegOf hr]
    simp [Reason.isSpam]
  have h2 : (linkSegOf (extract_links (effText msg))
      (lcAfter st now msg msg.fromUserId)).filter Reason.isSpam = [] := by
    rw [List.filter_eq_nil_iff]
    intro r hr
    rcases mem_linkSegOf hr with rfl | ⟨l, rfl⟩ <;> simp [Reason.isSpam]
  have h3 : (kwSegOf (effText msg)).filter Reason.isSpam = [] := by
    rw [List.filter_eq_nil_iff]
    intro r hr
    rcases mem_kwSegOf hr with ⟨k, rfl⟩
    simp [Reason.isSpam]
  have h4 : (spamSegOf (effText msg)).filter Reason.isSpam = spamSegOf (effText msg) := by
    rw [List.filter_eq_self]
    intro r hr
    rw [mem_spamSegOf hr]
    rfl
  rw [h1, h2, h3, h4]
  simp

theorem filter_isKeyword_check (st : MonitorState) (now : Nat) (msg : Message) :
    ((check_message st now msg).2).filter Reason.isKeyword = kwSegOf (effText msg) := by
  rw [check_message_snd, List.filter_append, List.filter_append, List.filter_append]
  have h1 : (floodSegOf (mcAfter st now msg msg.fromUserId)).filter Reason.isKeyword = [] := by
    rw [List.filter_eq_nil_iff]
    intro r hr
    rw [mem_floodSegOf hr]
    simp [Reason.isKeyword]
  have h2 : (linkSegOf (extract_links (effText msg))
      (lcAfter st now msg msg.fromUserId)).filter Reason.isKeyword = [] := by
    rw [List.filter_eq_nil_iff]
    intro r hr
    rcases mem_linkSegOf hr with rfl | ⟨l, rfl⟩ <;> simp [Reason.isKeyword]
  have h3 : (kwSegOf (effText msg)).filter Reason.isKeyword = kwSegOf (effText msg) := by
    rw [List.filter_eq_self]
    intro r hr
    rcases mem_kwSegOf hr with ⟨k, rfl⟩
    rfl
  have h4 : (spamSegOf (effText msg)).filter Reason.isKeyword = [] := by
    rw [List.filter_eq_nil_iff]
    intro r hr
    rw [mem_spamSegOf hr]
    simp [Reason.isKeyword]
  rw [h1, h2, h3, h4]
  simp

theorem filter_isSusUrl_linkSegOf (links : List (List Char)) (n : Nat) :
    (linkSegOf links n).filter Reason.isSusUrl
      = (links.filter is_suspicious_url).map Reason.suspiciousUrl := by
  unfold linkSegOf
  split
  · next h =>
    rw [List.isEmpty_iff.mp h]
    rfl
  · rw [List.filter_append]
    have h1 : (if n > LINKS_PER_HOUR then [Reason.excessLinks n] else []).filter
        Reason.isSusUrl = [] := by
      split <;> simp [Reason.isSusUrl]
    have h2 : ((links.filter is_suspicious_url).map Reason.suspiciousUrl).filter
        Reason.isSusUrl = (links.filter is_suspicious_url).map Reason.suspiciousUrl := by
      rw [List.filter_eq_self]
      intro r hr
      rcases List.mem_map.mp hr with ⟨l, _, rfl⟩
      rfl
    rw [h1, h2]
    simp

theorem filter_isSusUrl_check (st : MonitorState) (now : Nat) (msg : Message) :
    ((check_message st now msg).2).filter Reason.isSusUrl
      = ((extract_links (effText msg)).filter is_suspicious_url).map Reason.suspiciousUrl := by
  rw [check_message_snd, List.filter_append, List.filter_append, List.filter_append]
  have h1 : (floodSegOf (mcAfter st now msg msg.fromUserId)).filter Reason.isSusUrl = [] := by
    rw [List.filter_eq_nil_iff]
    intro r hr
    rw [mem_floodSegOf hr]
    simp [Reason.isSusUrl]
  have h3 : (kwSegOf (effText msg)).filter Reason.isSusUrl = [] := by
    rw [List.filter_eq_nil_iff]
    intro r hr
    rcases mem_kwSegOf hr with ⟨k, rfl⟩
    simp [Reason.isSusUrl]
  have h4 : (spamSegOf (effText msg)).filter Reason.isSusUrl = [] := by
    rw [List.filter_eq_nil_iff]
    intro r hr
    rw [mem_spamSegOf hr]
    simp [Reason.isSusUrl]
  rw [h1, h3, h4, filter_isSusUrl_linkSegOf]
  simp

theorem hasFlood_check (st : MonitorState) (now : Nat) (msg : Message) :
    hasFlood (check_message st now msg).2
      = decide (MESSAGES_PER_MINUTE < mcAfter st now msg msg.fromUserId) := by
  unfold hasFlood
  rw [check_message_snd, List.any_append, List.any_append, List.any_append]
  have h1 : (floodSegOf (mcAfter st now msg msg.fromUserId)).any Reason.isFlood
      = decide (MESSAGES_PER_MINUTE < mcAfter st now msg msg.fromUserId) := by
    unfold floodSegOf
    split
    · next h => simp [Reason.isFlood, h]
    · next h => simp [Nat.not_lt.mp (by simpa using h)]

  have h2 : (linkSegOf (extract_links (effText msg))
      (lcAfter st now msg msg.fromUserId)).any Reason.isFlood = false := by
    rw [List.any_eq_false]
    intro r hr
    rcases mem_linkSegOf hr with rfl | ⟨l, rfl⟩ <;> simp [Reason.isFlood]
  have h3 : (kwSegOf (effText msg)).any Reason.isFlood = false := by
    rw [List.any_eq_false]
    intro r hr
    rcases mem_kwSegOf hr with ⟨k, rfl⟩
    simp [Reason.isFlood]
  have h4 : (spamSegOf (effText msg)).any Reason.isFlood = false := by
    rw [List.any_eq_false]
    intro r hr
    rw [mem_spamSegOf hr]
    simp [Reason.isFlood]
  rw [h1, h2, h3, h4]
  simp

/-! ### Generic helpers: first-match structure of `List.find?`, pairwise -/

theorem find_some_of_mem {α : Type} {p : α → Bool} :
    ∀ {l : List α} {a : α}, a ∈ l → p a = true → ∃ k, l.find? p = some k := by
  intro l
  induction l with
  | nil =>
    intro a ha
    simp at ha
  | cons b t ih =>
    intro a ha hp
    by_cases hpb : p b = true
    · exact ⟨b, List.find?_cons_of_pos _ hpb⟩
    · rcases List.mem_cons.mp ha with rfl | hat
      · exact absurd hp hpb
      · obtain ⟨k, hk⟩ := ih hat hp
        exact ⟨k, by rw [List.find?_cons_of_neg _ hpb]; exact hk⟩

theorem find_decomp_of_some {α : Type} {p : α → Bool} :
    ∀ {l : List α} {k : α}, l.find? p = some k →
      ∃ pre post, l = pre ++ k :: post ∧ (∀ x ∈ pre, p x = false) ∧ p k = true := by
  intro l
  induction l with
  | nil =>
    intro k h
    simp [List.find?] at h
  | cons a t ih =>
    intro k h
    by_cases hpa : p a = true
    · rw [List.find?_cons_of_pos _ hpa] at h
      obtain rfl : a = k := by injection h
      exact ⟨[], t, rfl, by simp, hpa⟩
    · rw [List.find?_cons_of_neg _ hpa] at h
      obtain ⟨pre, post, rfl, hpre, hk⟩ := ih h
      refine ⟨a :: pre, post, rfl, ?_, hk⟩
      intro x hx
      rcases List.mem_cons.mp hx with rfl | hx
      · exact Bool.eq_false_iff.mpr hpa
      · exact hpre x hx

theorem pairwise_of_mem_rel {α : Type} {R : α → α → Prop} :
    ∀ {l : List α}, (∀ a ∈ l, ∀ b ∈ l, R a b) → l.Pairwise R := by
  intro l
  induction l with
  | nil =>
    intro
    exact List.Pairwise.nil
  | cons a t ih =>
    intro h
    refine List.Pairwise.cons (fun b hb => h a (by simp) b (by simp [hb])) (ih ?_)
    intro x hx y hy
    exact h x (by simp [hx]) y (by simp [hy])

/-! ### Running `check_message` repeatedly within one window -/

theorem checkRun_length (msg : Message) :
    ∀ (times : List Nat) (st : MonitorState),
      (checkRun st msg times).length = times.length := by
  intro times
  induction times with
  | nil =>
    intro st
    rfl
  | cons t ts ih =>
    intro st
    show (checkRun st msg (t :: ts)).length = ts.length + 1
    rw [show checkRun st msg (t :: ts)
        = (check_message st t msg).2 :: checkRun (check_message st t msg).1 msg ts from rfl]
    simp [ih]

theorem checkRun_hasFlood (msg : Message) :
    ∀ (times : List Nat) (st : MonitorState),
      (∀ t ∈ times, ¬ st.lastReset + 60 < t) →
      ∀ i (h : i < (checkRun st msg times).length),
        hasFlood ((checkRun st msg times).get ⟨i, h⟩)
          = decide (MESSAGES_PER_MINUTE < st.msgCount msg.fromUserId + (i + 1)) := by
  intro times
  induction times with
  | nil =>
    intro st _ i h
    simp [checkRun] at h
  | cons t ts ih =>
    intro st hnr i h
    have hnrt : ¬ st.lastReset + 60 < t := hnr t (by simp)
    have hreset : reset_counters st t = st := reset_counters_of_not hnrt
    match i with
    | 0 =>
      show hasFlood (check_message st t msg).2 = _
      rw [hasFlood_check, mcAfter_self, hreset]
    | Nat.succ j =>
      show hasFlood ((checkRun (check_message st t msg).1 msg ts).get ⟨j, _⟩) = _
      have hlr : (check_message st t msg).1.lastReset = st.lastReset := by
        rw [check_message_fst, hreset]
      have hmc : (check_message st t msg).1.msgCount msg.fromUserId
          = st.msgCount msg.fromUserId + 1 := by
        rw [check_message_fst]
        show mcAfter st t msg msg.fromUserId = _
        rw [mcAfter_self, hreset]
      have hnr' : ∀ t' ∈ ts, ¬ (check_message st t msg).1.lastReset + 60 < t' := by
        intro t' ht'
        rw [hlr]
        exact hnr t' (by simp [ht'])
      have hj : j < (checkRun (check_message st t msg).1 msg ts).length := by
        have hh := h
        rw [checkRun_length msg (t :: ts) st] at hh
        rw [checkRun_length msg ts]
        simpa using Nat.lt_of_succ_lt_succ hh
      rw [ih (check_message st t msg).1 hnr' j hj, hmc]
      have harith : st.msgCount msg.fromUserId + 1 + (j + 1)
          = st.msgCount msg.fromUserId + (j + 1 + 1) := by omega
      rw [harith]

/-! ### The claims -/

/-- Claim C2: for every actor whose window counter starts at zero, a run of
messages processed inside one window (no time in the run triggers the
one-minute reset) yields a flood reason on the `(i+1)`-th message exactly
when `i + 1 > MESSAGES_PER_MINUTE` (default 10): the `(limit+1)`-th message
is the first one carrying a flood reason, and no earlier message carries
one. -/
theorem flood_reason_iff_over_limit_in_window
    (msg : Message) (times : List Nat) (st : MonitorState)
    (h0 : st.msgCount msg.fromUserId = 0)
    (hwin : ∀ t ∈ times, ¬ st.lastReset + 60 < t) :
    ∀ i (h : i < (checkRun st msg times).length),
      hasFlood ((checkRun st msg times).get ⟨i, h⟩)
        = decide (MESSAGES_PER_MINUTE < i + 1) := by
  intro i h
  have := checkRun_hasFlood msg times st hwin i h
  rw [h0] at this
  simpa using this

/-- Claim C2 witness: with an initial monitor and 11 messages from one
actor inside one window, the 11th result carries a flood reason and the
1st does not. -/
theorem flood_reason_iff_over_limit_in_window_witness :
    hasFlood ((checkRun (initialMonitor 0)
        ⟨"u2", "c2", none, none, false⟩ (List.replicate 11 0)).get ⟨10, by decide⟩) = true ∧
    hasFlood ((checkRun (initialMonitor 0)
        ⟨"u2", "c2", none, none, false⟩ (List.replicate 11 0)).get ⟨0, by decide⟩) = false := by
  constructor
  · have := flood_reason_iff_over_limit_in_window
      ⟨"u2", "c2", none, none, false⟩ (List.replicate 11 0) (initialMonitor 0)
      (by decide) (by decide) 10 (by decide)
    simpa using this
  · have := flood_reason_iff_over_limit_in_window
      ⟨"u2", "c2", none, none, false⟩ (List.replicate 11 0) (initialMonitor 0)
      (by decide) (by decide) 0 (by decide)
    simpa using this

/-- Claim C3: (1) within a window (the one-minute reset not due), one
`check_message` call never decreases any actor's message or link counter;
(2) when strictly more than one window length has elapsed since the last
reset, `check_message` clears every actor's counters to zero before
incrementing, so afterwards the sender holds exactly this message's
contribution (1 message, the message's link count) and every other
actor holds zero. -/
theorem counters_monotone_and_reset_on_elapsed_window :
    (∀ (st : MonitorState) (now : Nat) (msg : Message) (u : String),
      ¬ st.lastReset + 60 < now →
      st.msgCount u ≤ (check_message st now msg).1.msgCount u ∧
      st.linkCount u ≤ (check_message st now msg).1.linkCount u) ∧
    (∀ (st : MonitorState) (now : Nat) (msg : Message) (u : String),
      st.lastReset + 60 < now →
      (check_message st now msg).1.msgCount u
        = (if u = msg.fromUserId then 1 else 0) ∧
      (check_message st now msg).1.linkCount u
        = (if u = msg.fromUserId then (extract_links (effText msg)).length else 0)) := by
  constructor
  · intro st now msg u hnr
    rw [check_message_fst]
    constructor
    · show st.msgCount u ≤ mcAfter st now msg u
      unfold mcAfter bump
      rw [reset_counters_of_not hnr]
      split <;> omega
    · show st.linkCount u ≤ lcAfter st now msg u
      unfold lcAfter bump
      rw [reset_counters_of_not hnr]
      split
      · exact Nat.le_refl _
      · by_cases hu : u = msg.fromUserId <;> simp [hu]
  · intro st now msg u helapsed
    rw [check_message_fst]
    constructor
    · show mcAfter st now msg u = _
      unfold mcAfter bump
      rw [reset_counters_of_elapsed helapsed]
    · show lcAfter st now msg u = _
      unfold lcAfter bump
      rw [reset_counters_of_elapsed helapsed]
      split
      · next hemp =>
        rw [List.isEmpty_iff.mp hemp]
        split <;> simp_all
      · split <;> simp_all

/-- Claim C3 witness: inside the window the counter does not decrease;
after more than a minute the counters reset (the new sender count is
exactly 1, an uninvolved actor's count is 0). -/
theorem counters_monotone_and_reset_on_elapsed_window_witness :
    ((initialMonitor 5).msgCount "w"
        ≤ (check_message (initialMonitor 5) 6 ⟨"w", "r", none, none, false⟩).1.msgCount "w") ∧
    ((check_message ⟨fun _ => 7, fun _ => 7, 0⟩ 100 ⟨"w", "r", none, none, false⟩).1.msgCount "w" = 1) ∧
    ((check_message ⟨fun _ => 7, fun _ => 7, 0⟩ 100 ⟨"w", "r", none, none, false⟩).1.msgCount "other" = 0) := by
  refine ⟨?_, ?_, ?_⟩
  · exact (counters_monotone_and_reset_on_elapsed_window.1
      (initialMonitor 5) 6 ⟨"w", "r", none, none, false⟩ "w" (by decide)).1
  · have := (counters_monotone_and_reset_on_elapsed_window.2
      ⟨fun _ => 7, fun _ => 7, 0⟩ 100 ⟨"w", "r", none, none, false⟩ "w" (by decide)).1
    simpa using this
  · have := (counters_monotone_and_reset_on_elapsed_window.2
      ⟨fun _ => 7, fun _ => 7, 0⟩ 100 ⟨"w", "r", none, none, false⟩ "other" (by decide)).1
    simpa using this

/-- Claim C4 counterexample: `"AAAA AAAA AAAA AAAA AAAA AAAA"` satisfies
both the shouting condition and the repetition condition, yet the whole
`check_message` result is the single entry `[Reason.spamPattern]` — not a
shouting reason plus a separate repetition reason (two distinct entries),
because `detect_spam_patterns` returns one boolean and `check_message`
appends at most one combined "Spam-like message pattern detected" reason. -/
theorem both_heuristics_yield_single_reason :
    shoutingHit ("AAAA AAAA AAAA AAAA AAAA AAAA".toList) = true ∧
    repetitionHit ("AAAA AAAA AAAA AAAA AAAA AAAA".toList) = true ∧
    (check_message (initialMonitor 0) 0
      ⟨"u4", "c4", some ("AAAA AAAA AAAA AAAA AAAA AAAA".toList), none, false⟩).2
      = [Reason.spamPattern] := by
  refine ⟨by decide, by decide, by decide⟩

/-- Claim C4 (amended): a message whose text satisfies both the shouting
condition and the repetition condition yields exactly ONE spam-pattern
entry in the `check_message` result (a single combined reason covering
both heuristics), not two distinct entries. -/
theorem combined_spam_reason_is_single_entry
    (st : MonitorState) (now : Nat) (msg : Message)
    (hs : shoutingHit (effText msg) = true)
    (_hr : repetitionHit (effText msg) = true) :
    ((check_message st now msg).2).filter Reason.isSpam = [Reason.spamPattern] := by
  rw [filter_isSpam_check]
  have hd : detect_spam_patterns (effText msg) = true := by
    unfold detect_spam_patterns
    split
    · next hemp =>
      rw [List.isEmpty_iff.mp hemp] at hs
      simp [shoutingHit] at hs
    · rw [hs]
      rfl
  unfold spamSegOf
  rw [hd]
  rfl

/-- Claim C4 amended witness: a concrete message triggering both
heuristics carries exactly the single combined spam-pattern reason. -/
theorem combined_spam_reason_is_single_entry_witness :
    ((check_message (initialMonitor 3) 4
      ⟨"u4b", "c4b", some ("BBBB BBBB BBBB BBBB BBBB BBBB".toList), none, false⟩).2).filter
      Reason.isSpam = [Reason.spamPattern] :=
  combined_spam_reason_is_single_entry (initialMonitor 3) 4
    ⟨"u4b", "c4b", some ("BBBB BBBB BBBB BBBB BBBB BBBB".toList), none, false⟩
    (by decide) (by decide)

/-- Claim C5 counterexample: `"ABCDEFGH 123"` has 12 characters, 8
alphabetic characters, all 8 uppercase — so the spec's condition
("fraction of alphabetic characters that are uppercase exceeds 0.7",
here 100%) holds — yet the source computes `8 / 12 ≈ 0.67 ≤ 0.7` over the
FULL length and produces no reason at all: the claimed iff fails. -/
theorem shouting_alphabetic_fraction_refuted :
    shoutingSpecClaim ("ABCDEFGH 123".toList) = true ∧
    shoutingHit ("ABCDEFGH 123".toList) = false ∧
    (check_message (initialMonitor 0) 0
      ⟨"u5", "c5", some ("ABCDEFGH 123".toList), none, false⟩).2 = [] := by
  refine ⟨by decide, by decide, by decide⟩

/-- Claim C5 (amended): when the repetition heuristic does not fire, a
spam-pattern reason is produced iff the text length exceeds 10 and the
fraction of ALL characters (not only alphabetic ones) that are uppercase
exceeds 0.7; in particular a 20-character message with 15 uppercase
letters is flagged and one with 13 uppercase letters is not (witness). -/
theorem shouting_fraction_uses_total_length
    (st : MonitorState) (now : Nat) (msg : Message)
    (hr : repetitionHit (effText msg) = false) :
    ((check_message st now msg).2).filter Reason.isSpam = [Reason.spamPattern]
      ↔ (10 < (effText msg).length ∧
         7 * (effText msg).length < 10 * upperCount (effText msg)) := by
  rw [filter_isSpam_check]
  have hd : detect_spam_patterns (effText msg) = shoutingHit (effText msg) := by
    unfold detect_spam_patterns
    split
    · next hemp =>
      rw [List.isEmpty_iff.mp hemp]
      simp [shoutingHit]
    · rw [hr]
      simp
  have hiff : shoutingHit (effText msg) = true
      ↔ (10 < (effText msg).length ∧
         7 * (effText msg).length < 10 * upperCount (effText msg)) := by
    unfold shoutingHit
    rw [Bool.and_eq_true, decide_eq_true_iff, decide_eq_true_iff]
  rw [← hiff]
  unfold spamSegOf
  rw [hd]
  cases hsh : shoutingHit (effText msg) <;> simp [hsh]

/-- Claim C5 amended witness: 20 characters with 15 uppercase (ratio 0.75
over the full length) is flagged; 20 characters with 13 uppercase (0.65)
is not. -/
theorem shouting_fraction_uses_total_length_witness :
    (((check_message (initialMonitor 0) 0
        ⟨"u5b", "c5b", some ("AAAAAAAAAAAAAAA bcde".toList), none, false⟩).2).filter
        Reason.isSpam = [Reason.spamPattern]) ∧
    ¬ (((check_message (initialMonitor 0) 0
        ⟨"u5c", "c5c", some ("AAAAAAAAAAAAA bcdefg".toList), none, false⟩).2).filter
        Reason.isSpam = [Reason.spamPattern]) := by
  constructor
  · exact (shouting_fraction_uses_total_length (initialMonitor 0) 0
      ⟨"u5b", "c5b", some ("AAAAAAAAAAAAAAA bcde".toList), none, false⟩ (by decide)).mpr
      (by decide)
  · intro h
    have := (shouting_fraction_uses_total_length (initialMonitor 0) 0
      ⟨"u5c", "c5c", some ("AAAAAAAAAAAAA bcdefg".toList), none, false⟩ (by decide)).mp h
    exact absurd this (by decide)

/-- Claim C6: when a message text contains two (or more) distinct
configured suspicious keywords case-insensitively, the `check_message`
result carries exactly one keyword reason, and it reports the first
matching keyword: the keyword list splits as `pre ++ k :: post` where no
keyword of `pre` matches the text, `k` matches, and the keyword portion
of the result is exactly `[Reason.keyword k]`. -/
theorem keyword_reason_unique_and_first_match
    (st : MonitorState) (now : Nat) (msg : Message) (kw1 kw2 : List Char)
    (h1 : kw1 ∈ SUSPICIOUS_KEYWORDS) (_h2 : kw2 ∈ SUSPICIOUS_KEYWORDS)
    (_hne : kw1 ≠ kw2)
    (hc1 : containsSeq (lowerText kw1) (lowerText (effText msg)) = true)
    (_hc2 : containsSeq (lowerText kw2) (lowerText (effText msg)) = true) :
    ∃ k pre post,
      firstKeyword (effText msg) = some k ∧
      SUSPICIOUS_KEYWORDS = pre ++ k :: post ∧
      (∀ x ∈ pre, containsSeq (lowerText x) (lowerText (effText msg)) = false) ∧
      ((check_message st now msg).2).filter Reason.isKeyword = [Reason.keyword k] := by
  obtain ⟨k, hk⟩ := find_some_of_mem
    (p := fun kw => containsSeq (lowerText kw) (lowerText (effText msg))) h1 hc1
  have hk' : firstKeyword (effText msg) = some k := hk
  obtain ⟨pre, post, heq, hpre, _⟩ := find_decomp_of_some hk
  refine ⟨k, pre, post, hk', heq, hpre, ?_⟩
  rw [filter_isKeyword_check]
  unfold kwSegOf
  rw [hk']

/-- Claim C6 witness: `"spam scam"` contains the two distinct keywords
`spam` and `scam`; the result's keyword portion is exactly the single
reason for `spam`, the first match in the configured list order. -/
theorem keyword_reason_unique_and_first_match_witness :
    ((check_message (initialMonitor 0) 0
      ⟨"u6", "c6", some ("spam scam".toList), none, false⟩).2).filter Reason.isKeyword
      = [Reason.keyword ("spam".toList)] := by
  obtain ⟨k, _, _, hfind, _, _, hfilter⟩ :=
    keyword_reason_unique_and_first_match (initialMonitor 0) 0
      ⟨"u6", "c6", some ("spam scam".toList), none, false⟩
      ("spam".toList) ("scam".toList)
      (by decide) (by decide) (by decide) (by decide) (by decide)
  have hk : k = "spam".toList := by
    have hcomp : firstKeyword (effText
        ⟨"u6", "c6", some ("spam scam".toList), none, false⟩) = some ("spam".toList) := by
      decide
    rw [hcomp] at hfind
    exact (Option.some.inj hfind).symm
  rw [hk] at hfilter
  exact hfilter

/-- Claim C7: every extracted link is independently checked against the
URL-shortener blacklist and contributes exactly one suspicious-URL reason
when blacklisted and none otherwise — the suspicious-URL portion of every
`check_message` result is exactly the blacklisted sublist of the extracted
links, in order; and the concrete message containing `https://bit.ly/x`
and `https://example.com/y` yields exactly one blacklisted-link reason
(for the `bit.ly` link). -/
theorem blacklisted_link_reasons_exact :
    (∀ (st : MonitorState) (now : Nat) (msg : Message),
      ((check_message st now msg).2).filter Reason.isSusUrl
        = ((extract_links (effText msg)).filter is_suspicious_url).map
            Reason.suspiciousUrl) ∧
    ((check_message (initialMonitor 0) 0
      ⟨"u7", "c7", some ("https://bit.ly/x https://example.com/y".toList), none,
        false⟩).2).filter Reason.isSusUrl
      = [Reason.suspiciousUrl ("https://bit.ly/x".toList)] := by
  constructor
  · exact filter_isSusUrl_check
  · decide

/-- Claim C8: every `check_message` result is ordered by category — flood
reasons first, then link reasons (the excess-links reason before the
per-blacklisted-link reasons), then the keyword reason, then the
spam-pattern reason (the single combined entry produced by the shouting
and repetition heuristics). -/
theorem reasons_ordered_by_category
    (st : MonitorState) (now : Nat) (msg : Message) :
    ((check_message st now msg).2).Pairwise
      (fun a b => Reason.rank a ≤ Reason.rank b) := by
  rw [check_message_snd]
  have hflood : ∀ r ∈ floodSegOf (mcAfter st now msg msg.fromUserId),
      Reason.rank r = 0 := by
    intro r hr
    rw [mem_floodSegOf hr]
    rfl
  have hlink : ∀ r ∈ linkSegOf (extract_links (effText msg))
      (lcAfter st now msg msg.fromUserId),
      1 ≤ Reason.rank r ∧ Reason.rank r ≤ 2 := by
    intro r hr
    rcases mem_linkSegOf hr with rfl | ⟨l, rfl⟩ <;> simp [Reason.rank]
  have hkw : ∀ r ∈ kwSegOf (effText msg), Reason.rank r = 3 := by
    intro r hr
    rcases mem_kwSegOf hr with ⟨k, rfl⟩
    rfl
  have hspam : ∀ r ∈ spamSegOf (effText msg), Reason.rank r = 4 := by
    intro r hr
    rw [mem_spamSegOf hr]
    rfl
  have pflood : (floodSegOf (mcAfter st now msg msg.fromUserId)).Pairwise
      (fun a b => Reason.rank a ≤ Reason.rank b) := by
    unfold floodSegOf
    split <;> simp
  have plink : (linkSegOf (extract_links (effText msg))
      (lcAfter st now msg msg.fromUserId)).Pairwise
      (fun a b => Reason.rank a ≤ Reason.rank b) := by
    unfold linkSegOf
    split
    · simp
    · rw [List.pairwise_append]
      refine ⟨by split <;> simp, ?_, ?_⟩
      · refine pairwise_of_mem_rel ?_
        intro a ha b hb
        rcases List.mem_map.mp ha with ⟨x, _, rfl⟩
        rcases List.mem_map.mp hb with ⟨y, _, rfl⟩
        exact Nat.le_refl _
      · intro a ha b hb
        have h1 : a = Reason.excessLinks (lcAfter st now msg msg.fromUserId) := by
          split at ha <;> simp_all
        rcases List.mem_map.mp hb with ⟨y, _, rfl⟩
        rw [h1]
        exact Nat.le_succ 1
  have pkw : (kwSegOf (effText msg)).Pairwise
      (fun a b => Reason.rank a ≤ Reason.rank b) := by
    unfold kwSegOf
    split <;> simp
  have pspam : (spamSegOf (effText msg)).Pairwise
      (fun a b => Reason.rank a ≤ Reason.rank b) := by
    unfold spamSegOf
    split <;> simp
  rw [List.pairwise_append]
  refine ⟨?_, pspam, ?_⟩
  · rw [List.pairwise_append]
    refine ⟨?_, pkw, ?_⟩
    · rw [List.pairwise_append]
      refine ⟨pflood, plink, ?_⟩
      · intro a ha b hb
        rw [hflood a ha]
        exact Nat.zero_le _
    · intro a ha b hb
      rcases List.mem_append.mp ha with ha' | ha'
      · rw [hflood a ha', hkw b hb]
        omega
      · rw [hkw b hb]
        exact le_trans (hlink a ha').2 (by omega)
  · intro a ha b hb
    rw [hspam b hb]
    rcases List.mem_append.mp ha with ha' | ha'
    · rcases List.mem_append.mp ha' with ha'' | ha''
      · rw [hflood a ha'']
        omega
      · exact le_trans (hlink a ha'').2 (by omega)
    · rw [hkw a ha']
      omega

/-- Claim C9 counterexample: a caption-only message (no text field) is NOT
treated as empty text — `check_message` substitutes the caption via
`message.text or message.caption or ""` and classifies it, so a message
with caption `"spam"` and no text yields a keyword reason. -/
theorem caption_only_message_is_classified :
    (⟨"u9", "c9", none, some ("spam".toList), false⟩ : Message).text = none ∧
    (check_message (initialMonitor 0) 0
      ⟨"u9", "c9", none, some ("spam".toList), false⟩).2
      = [Reason.keyword ("spam".toList)] := by
  refine ⟨rfl, by decide⟩

/-- Claim C9 (amended): a message whose effective content is empty (no
usable text AND no usable caption — media-only) produces no keyword, link,
shouting, or repetition reason: every reason in the result is a flood
reason.  `check_message` is a total function, so empty/absent input is
processed without error.  (Caption-only messages, by contrast, are
classified on their caption, see the counterexample.) -/
theorem empty_content_yields_no_content_reasons
    (st : MonitorState) (now : Nat) (msg : Message)
    (h : effText msg = []) :
    ((check_message st now msg).2).all Reason.isFlood = true := by
  rw [check_message_snd, h]
  have hlink : linkSegOf (extract_links []) (lcAfter st now msg msg.fromUserId) = [] := rfl
  have hkw : kwSegOf [] = [] := by decide
  have hspam : spamSegOf [] = [] := rfl
  rw [hlink, hkw, hspam]
  simp only [List.append_nil]
  rw [List.all_eq_true]
  intro r hr
  rw [mem_floodSegOf hr]
  rfl

/-- Claim C9 amended witness: a media-only message (neither text nor
caption) yields a result whose entries are all flood reasons (here: an
empty result on a fresh window). -/
theorem empty_content_yields_no_content_reasons_witness :
    ((check_message (initialMonitor 0) 0
      ⟨"u9b", "c9b", none, none, false⟩).2).all Reason.isFlood = true :=
  empty_content_yields_no_content_reasons (initialMonitor 0) 0
    ⟨"u9b", "c9b", none, none, false⟩ rfl

/-- Claim C10: any message whose lowercased text contains the substring
`http://` or `https://` produces a non-empty reason list, because those
URL schemes are themselves configured suspicious keywords, so the keyword
scan always fires on link-bearing text even when all counters are under
their limits and no link is blacklisted. -/
theorem scheme_bearing_text_always_flagged
    (st : MonitorState) (now : Nat) (msg : Message)
    (h : containsSeq ("http://".toList) (lowerText (effText msg)) = true ∨
         containsSeq ("https://".toList) (lowerText (effText msg)) = true) :
    (check_message st now msg).2 ≠ [] := by
  have hx : ∃ kw ∈ SUSPICIOUS_KEYWORDS,
      containsSeq (lowerText kw) (lowerText (effText msg)) = true := by
    rcases h with h | h
    · refine ⟨"http://".toList, by decide, ?_⟩
      have e : lowerText ("http://".toList) = "http://".toList := by decide
      rw [e]
      exact h
    · refine ⟨"https://".toList, by decide, ?_⟩
      have e : lowerText ("https://".toList) = "https://".toList := by decide
      rw [e]
      exact h
  obtain ⟨kw, hmem, hp⟩ := hx
  obtain ⟨k, hk⟩ := find_some_of_mem
    (p := fun w => containsSeq (lowerText w) (lowerText (effText msg))) hmem hp
  have hk' : firstKeyword (effText msg) = some k := hk
  have hmemres : Reason.keyword k ∈ (check_message st now msg).2 := by
    rw [check_message_snd]
    have : Reason.keyword k ∈ kwSegOf (effText msg) := by
      unfold kwSegOf
      rw [hk']
      simp
    simp [List.mem_append, this]
  exact List.ne_nil_of_mem hmemres

/-- Claim C10 witness: `"see https://x"` is flagged (non-empty reasons)
although no counter is over its limit and no link is blacklisted. -/
theorem scheme_bearing_text_always_flagged_witness :
    (check_message (initialMonitor 0) 0
      ⟨"u10", "c10", some ("see https://x".toList), none, false⟩).2 ≠ [] :=
  scheme_bearing_text_always_flagged (initialMonitor 0) 0
    ⟨"u10", "c10", some ("see https://x".toList), none, false⟩ (Or.inr (by decide))

/-- Claim C1 counterexample: two consecutive flagged messages from the SAME
(room, actor) pair both take the alert-dispatch path — the second is not
suppressed, there being no cooldown set anywhere in the source, so "at most
one alert per (room, actor) pair until cleared or restart" is false. -/
theorem alert_dispatched_twice_same_pair :
    (handle_message (initialMonitor 0) 0
      ⟨"u1", "c1", some ("spam".toList), none, false⟩).2 = true ∧
    (handle_message (handle_message (initialMonitor 0) 0
        ⟨"u1", "c1", some ("spam".toList), none, false⟩).1 1
      ⟨"u1", "c1", some ("spam".toList), none, false⟩).2 = true := by
  refine ⟨by decide, by decide⟩

/-- Claim C1 (amended): `handle_message` takes the alert-dispatch path for
EVERY non-bot message whose check yields a non-empty reason list; there is
no per-(room, actor) cooldown gate, so two consecutive flagged messages
from the same pair both dispatch. -/
theorem alert_dispatch_has_no_cooldown
    (st : MonitorState) (t1 t2 : Nat) (msg : Message)
    (hb : msg.isBot = false)
    (h1 : (check_message st t1 msg).2 ≠ [])
    (h2 : (check_message (check_message st t1 msg).1 t2 msg).2 ≠ []) :
    (handle_message st t1 msg).2 = true ∧
    (handle_message (handle_message st t1 msg).1 t2 msg).2 = true := by
  unfold handle_message
  rw [hb]
  simp only [Bool.false_eq_true, if_false]
  constructor
  · rw [Bool.not_eq_true']
    exact List.isEmpty_eq_false.mpr h1
  · rw [Bool.not_eq_true']
    exact List.isEmpty_eq_false.mpr h2

/-- Claim C1 amended witness: two flagged messages from one (room, actor)
pair, one second apart, both dispatch. -/
theorem alert_dispatch_has_no_cooldown_witness :
    (handle_message (initialMonitor 0) 5
      ⟨"ua", "ca", some ("scam!".toList), none, false⟩).2 = true ∧
    (handle_message (handle_message (initialMonitor 0) 5
        ⟨"ua", "ca", some ("scam!".toList), none, false⟩).1 6
      ⟨"ua", "ca", some ("scam!".toList), none, false⟩).2 = true :=
  alert_dispatch_has_no_cooldown (initialMonitor 0) 5 6
    ⟨"ua", "ca", some ("scam!".toList), none, false⟩ rfl (by decide) (by decide)

end Hamsas
